import Mathlib

/-
Formal model of the git_laws pipeline: amendment naming (api_client.py),
minister resolution (minister_lookup.py, minister_lookup_manual.py), the
version timeline builder (law_processor.py) and the per-entry conversion
loop (law_converter.py, data_loader.py).  Each definition is a shallow
embedding of the correspondingly named Python function; external I/O
(HTTP fetches, the git sink, the HTML prettifier) is passed in as data or
function parameters.  Machine integers do not occur (Python ints are
unbounded); dates are the (year, month, day) triples that
datetime.strptime produces, compared lexicographically exactly as Python
compares datetime objects.
-/

namespace GitLaws

/-- A calendar date as produced by datetime.strptime: Python datetime
comparison is lexicographic on (year, month, day). -/
structure Date where
  year : Nat
  month : Nat
  day : Nat
deriving DecidableEq, Repr

/-- Boolean version of Python datetime ordering (lexicographic). -/
def dateLe (a b : Date) : Bool :=
  decide (a.year < b.year) ||
    (decide (a.year = b.year) &&
      (decide (a.month < b.month) ||
        (decide (a.month = b.month) && decide (a.day ≤ b.day))))

/-- ASCII lower-casing of one character, the fragment of Python str.lower
exercised by the data (ministry names and queries are compared after
lower-casing). -/
def lowerC (c : Char) : Char :=
  if 65 ≤ c.toNat ∧ c.toNat ≤ 90 then Char.ofNat (c.toNat + 32) else c

/-- Lower-case a character list (model of Python str.lower). -/
def lowerL (l : List Char) : List Char := l.map lowerC

/-- Does the second list start with the first one? -/
def startsL : List Char → List Char → Bool
  | [], _ => true
  | _ :: _, [] => false
  | a :: as, b :: bs => a == b && startsL as bs

/-- Model of the Python substring test (needle in hay). -/
def subL (needle : List Char) : List Char → Bool
  | [] => startsL needle []
  | c :: rest => startsL needle (c :: rest) || subL needle rest

/-- Propositional form of "needle occurs inside hay as a contiguous run". -/
def SubstrOf (needle hay : List Char) : Prop :=
  ∃ p s, hay = p ++ needle ++ s

/-- Split a character list at every occurrence of the separator, keeping
empty pieces (model of Python str.split(sep)). -/
def splitOnChar (sep : Char) : List Char → List (List Char)
  | [] => [[]]
  | c :: rest =>
    if c = sep then [] :: splitOnChar sep rest
    else
      match splitOnChar sep rest with
      | [] => [[c]]
      | p :: ps => (c :: p) :: ps

/-- ASCII digit test. -/
def isDigitC (c : Char) : Bool := decide (48 ≤ c.toNat ∧ c.toNat ≤ 57)

/-- Decimal value of a digit list. -/
def digitsToNat (l : List Char) : Nat :=
  l.foldl (fun n c => n * 10 + (c.toNat - 48)) 0

/-- Gregorian leap-year rule, as the datetime module applies it. -/
def leapYear (y : Nat) : Bool :=
  decide (y % 4 = 0) && (decide (y % 100 ≠ 0) || decide (y % 400 = 0))

/-- Length of a month in a given year. -/
def daysInMonth (y m : Nat) : Nat :=
  if m = 2 then (if leapYear y then 29 else 28)
  else if m = 4 ∨ m = 6 ∨ m = 9 ∨ m = 11 then 30
  else 31

/-- The digit form of CPython's %d directive (the alternatives 3[01],
[12] then a digit, 0[1-9] and [1-9] of its _strptime regex, plus the
whole-string requirement): one or two digits valued 1..31. -/
def dayDigitForm (l : List Char) : Option Nat :=
  if !l.isEmpty && l.all isDigitC && decide (l.length ≤ 2)
      && decide (1 ≤ digitsToNat l) && decide (digitsToNat l ≤ 31) then
    some (digitsToNat l)
  else none

/-- The day field of CPython's %d directive: its digit form, or the
space-padded alternative of the _strptime regex - a space followed by
one digit 1..9. -/
def parseDayField (l : List Char) : Option Nat :=
  match l with
  | [c1, c2] =>
    if c1 = ' ' then
      if isDigitC c2 && decide (c2.toNat ≠ 48) then some (c2.toNat - 48) else none
    else dayDigitForm [c1, c2]
  | _ => dayDigitForm l

/-- Model of datetime.strptime(s, "%Y-%m-%d"), following CPython's
_strptime regex for each directive: the year is exactly four digits
(year 0 is then rejected by the date constructor), the month is one or
two digits valued 1..12, the day is one or two digits valued 1..31 or
space-padded, and the day must exist in the parsed month; anything
else raises ValueError, modelled as none. -/
def parseYMD (s : String) : Option Date :=
  match splitOnChar '-' s.toList with
  | [ys, ms, ds] =>
    if ys.all isDigitC && decide (ys.length = 4)
        && !ms.isEmpty && ms.all isDigitC && decide (ms.length ≤ 2) then
      match parseDayField ds with
      | none => none
      | some d =>
        let y := digitsToNat ys
        let m := digitsToNat ms
        if 1 ≤ y ∧ 1 ≤ m ∧ m ≤ 12 ∧ d ≤ daysInMonth y m then
          some ⟨y, m, d⟩
        else none
    else none
  | _ => none

/-- Lexicographic order on character lists by code point: how Python
compares the datumDokumenta strings when sorting NPB records. -/
def lexLe : List Char → List Char → Bool
  | [], _ => true
  | _ :: _, [] => false
  | a :: as, b :: bs => if a = b then lexLe as bs else decide (a.toNat < b.toNat)

/-- One amendment event from posegiVPredpis: only its free-text name
(naziv) is read by the code. -/
structure Amendment where
  naziv : String
deriving DecidableEq, Repr

/-- One raw NPB (consolidated text) record as fetched from the registry:
the fields api_client reads are its id, naziv and datumDokumenta (a raw
date string, empty when the registry supplied none). -/
structure NpbRec where
  id : Nat
  naziv : String
  datumDokumenta : String
deriving DecidableEq, Repr

/-- Everything after the first opening parenthesis of the list, if any. -/
def afterFirstOpen : List Char → Option (List Char)
  | [] => none
  | c :: rest => if c = '(' then some rest else afterFirstOpen rest

/-- Model of re.search applied to an amendment title with the pattern
backslash ( [^)]+ backslash ) $ , returning group 1: the string must end
in a closing parenthesis, and the code extracted is the non-empty text
after the leftmost opening parenthesis that is not followed by any other
closing parenthesis before the final one. -/
def parenCode? (s : String) : Option String :=
  match s.toList.getLast? with
  | some c =>
    if c = ')' then
      let t := s.toList.dropLast
      let u := (t.reverse.takeWhile (fun d => !(d = ')'))).reverse
      match afterFirstOpen u with
      | some rest => if rest.isEmpty then none else some (String.mk rest)
      | none => none
    else none
  | none => none

/-- The amendment-event branch of _determine_amendment_name: scanning the
amendment list, a name is produced only when some event title carries a
parenthesised code, the version number does not exceed the event count,
the index version_number - 2 (computed in Python's signed arithmetic) is
in range, and the event at that index itself carries a parenthesised
code, which is then returned. -/
def amendmentEventCode? (versionNumber : Nat) (amendments : List Amendment) : Option String :=
  if amendments.any (fun a => (parenCode? a.naziv).isSome) then
    if versionNumber ≤ amendments.length then
      let idx : Int := (versionNumber : Int) - 2
      if 0 ≤ idx ∧ idx < (amendments.length : Int) then
        match amendments[idx.toNat]? with
        | some target => parenCode? target.naziv
        | none => none
      else none
    else none
  else none

/-- The fallback letter scheme of _determine_amendment_name for version
numbers at least 2 (the only values that reach it): versions 2-4 get the
literal suffixes A, B, C; beyond that the letter index is
version_number - 2, a single letter below 26 and otherwise the two
letters with codes 65 + (idx - 26) / 26 and 65 + (idx - 26) % 26. -/
def fallbackLetterName (baseKratica : String) (versionNumber : Nat) : String :=
  if versionNumber = 2 then baseKratica ++ "A"
  else if versionNumber = 3 then baseKratica ++ "B"
  else if versionNumber = 4 then baseKratica ++ "C"
  else
    let letterIdx := versionNumber - 2
    if letterIdx < 26 then
      baseKratica ++ String.mk [Char.ofNat (65 + letterIdx)]
    else
      baseKratica ++ String.mk [Char.ofNat (65 + (letterIdx - 26) / 26),
        Char.ofNat (65 + (letterIdx - 26) % 26)]

/-- Model of PISRSClient._determine_amendment_name: version 1 is the
original law and keeps the base short code; a missing or unparseable
document date yields the name base ++ "-v" ++ n; otherwise an
amendment-derived code is used when the positional alignment finds one,
and the deterministic letter suffix otherwise. -/
def determineAmendmentName (npb : NpbRec) (versionNumber : Nat)
    (amendments : List Amendment) (baseKratica : String) : String :=
  if versionNumber = 1 then baseKratica
  else if npb.datumDokumenta = "" then
    baseKratica ++ "-v" ++ toString versionNumber
  else
    match parseYMD npb.datumDokumenta with
    | none => baseKratica ++ "-v" ++ toString versionNumber
    | some _ =>
      match amendmentEventCode? versionNumber amendments with
      | some kratica => kratica
      | none => fallbackLetterName baseKratica versionNumber

/-- One formatted NPB entry as get_historical_npb_versions emits it (the
fields the rest of the pipeline reads; presentation-only fields such as
the reformatted dates are omitted). -/
structure NpbEntry where
  ID : String
  KRATICA : String
  NASLOV : String
  amendment_name : String
  version_number : Nat
deriving DecidableEq, Repr

/-- Build one result entry for an NPB record at 1-based position
versionNumber, naming it through determineAmendmentName; both KRATICA
and the stashed amendment name receive the derived name. -/
def npbEntryOf (amendments : List Amendment) (baseKratica : String)
    (npb : NpbRec) (versionNumber : Nat) : NpbEntry :=
  let name := determineAmendmentName npb versionNumber amendments baseKratica
  { ID := toString npb.id
    KRATICA := name
    NASLOV := npb.naziv
    amendment_name := name
    version_number := versionNumber }

/-- The enumeration loop of get_historical_npb_versions: position i in
the sorted list becomes version number i + 1. -/
def buildNpbEntries (amendments : List Amendment) (baseKratica : String) :
    Nat → List NpbRec → List NpbEntry
  | _, [] => []
  | i, npb :: rest =>
    npbEntryOf amendments baseKratica npb (i + 1) ::
      buildNpbEntries amendments baseKratica (i + 1) rest

/-- Core of PISRSClient.get_historical_npb_versions once the records and
the amendment list have been fetched: sort the NPB records by their raw
datumDokumenta string (oldest first, Python's stable sort on string
keys) and convert each to an entry with a derived amendment name. -/
def get_historical_npb_versions (npbs : List NpbRec)
    (amendments : List Amendment) (baseKratica : String) : List NpbEntry :=
  buildNpbEntries amendments baseKratica 0
    (npbs.mergeSort (fun a b => lexLe a.datumDokumenta.toList b.datumDokumenta.toList))

/-- The ministry field of one record in the combined ministers dataset:
either a plain string or a bilingual English/Slovenian pair
(minister_lookup reads it with an isinstance(dict) test). -/
inductive MinistryField
  | plain (s : String)
  | bilingual (en sl : String)
deriving DecidableEq, Repr

/-- One flattened minister record of the combined dataset, with the
fields MinisterLookup.find_minister reads; the start and end dates are
the values strptime produces from the stored strings. -/
structure MinisterRec where
  ministry : MinistryField
  name : String
  start_date : Date
  end_date : Date
deriving DecidableEq, Repr

/-- Model of MinisterLookup._ministry_matches: for a bilingual field the
lower-cased query and each language are compared by substring in both
directions; for a plain string field only the query-inside-candidate
direction is tested. -/
def ministryMatches (minister : MinisterRec) (ministryQuery : String) : Bool :=
  match minister.ministry with
  | .bilingual en sl =>
    let ministry_en := lowerL en.toList
    let ministry_sl := lowerL sl.toList
    let query := lowerL ministryQuery.toList
    subL query ministry_en || subL query ministry_sl ||
      subL ministry_en query || subL ministry_sl query
  | .plain s => subL (lowerL ministryQuery.toList) (lowerL s.toList)

/-- The date-range test of MinisterLookup.find_minister:
start_date <= query_date <= end_date, inclusive on both ends. -/
def ministerActiveOn (minister : MinisterRec) (queryDate : Date) : Bool :=
  dateLe minister.start_date queryDate && dateLe queryDate minister.end_date

/-- Model of MinisterLookup.find_minister: scan the records in stored
order and return the first whose ministry matches the query and whose
inclusive date range contains the query date (the Python code then
formats the record for output; the record itself is returned here). -/
def find_minister (ministers : List MinisterRec) (ministry : String)
    (queryDate : Date) : Option MinisterRec :=
  ministers.find? (fun m => ministryMatches m ministry && ministerActiveOn m queryDate)

/-- Model of DataLoader.get_responsible_minister: a failed lookup raises
ValueError (caught by the caller), modelled as an error value. -/
def get_responsible_minister (ministers : List MinisterRec) (lawDate : Date)
    (preparingMinistry : String) : Except String MinisterRec :=
  match find_minister ministers preparingMinistry lawDate with
  | none => Except.error ("No minister found for ministry " ++ preparingMinistry)
  | some m => Except.ok m

/-- One appointment inside a manually curated government record, with
the fields the manual lookup reads; dates are Option because
_parse_date returns None on a missing or unparseable string. -/
structure Appointment where
  ministry_code : String
  name : String
  start_date : Option Date
  end_date : Option Date
deriving DecidableEq, Repr

/-- One manually curated government: its period bounds (parsed, hence
optional) and its appointment list. -/
structure Government where
  number : Nat
  periodStart : Option Date
  periodEnd : Option Date
  ministers : List Appointment
deriving DecidableEq, Repr

/-- The period test of ManualMinisterLookup.get_government_by_date: both
bounds must have parsed and the interval is inclusive on both ends. -/
def govPeriodContains (gov : Government) (target : Date) : Bool :=
  match gov.periodStart, gov.periodEnd with
  | some s, some e => dateLe s target && dateLe target e
  | _, _ => false

/-- Model of ManualMinisterLookup.get_government_by_date: nothing is
returned for an unparseable query date; otherwise the first government
whose period contains the date wins. -/
def get_government_by_date (governments : List Government)
    (lawDate : Option Date) : Option Government :=
  match lawDate with
  | none => none
  | some target => governments.find? (fun gov => govPeriodContains gov target)

/-- Model of ManualMinisterLookup.get_minister_by_ministry_code_and_date:
inside the government owning the date, the first appointment with the
requested ministry code and a parsed inclusive tenure containing the
date yields its officeholder name. -/
def get_minister_by_ministry_code_and_date (governments : List Government)
    (ministryCode : String) (lawDate : Option Date) : Option String :=
  match get_government_by_date governments lawDate with
  | none => none
  | some gov =>
    match lawDate with
    | none => none
    | some target =>
      (gov.ministers.find? (fun m =>
        m.ministry_code == ministryCode &&
          (match m.start_date, m.end_date with
           | some s, some e => dateLe s target && dateLe target e
           | _, _ => false))).map Appointment.name

/-- The fixed keyword-to-code table of
get_minister_by_ministry_name_and_date, in the source's insertion order
(Python dict iteration preserves it); two keys carry the source file's
mis-encoded characters verbatim. -/
def ministry_mappings : List (String × String) :=
  [("finance", "MF"), ("financ", "MF"), ("ministrstvo za finance", "MF"),
   ("justice", "MP"), ("pravosodje", "MP"), ("ministrstvo za pravosodje", "MP"),
   ("interior", "MNZ"), ("notranje", "MNZ"), ("ministrstvo za notranje zadeve", "MNZ"),
   ("defense", "MORS"), ("obrambo", "MORS"), ("ministrstvo za obrambo", "MORS"),
   ("foreign", "MZZ"), ("zunan", "MZZ"), ("ministrstvo za zunanje zadeve", "MZZ"),
   ("health", "MZ"), ("zdravje", "MZ"), ("ministrstvo za zdravje", "MZ"),
   ("education", "MIZS"), ("izobraÅ¾evan", "MIZS"), ("ministrstvo za izobraÅ¾evanje", "MIZS"),
   ("culture", "MK"), ("kultur", "MK"), ("ministrstvo za kulturo", "MK"),
   ("agriculture", "MKGP"), ("kmetijstvo", "MKGP"), ("ministrstvo za kmetijstvo", "MKGP")]

/-- Model of ManualMinisterLookup.get_minister_by_ministry_name_and_date:
the first table key that occurs inside the lower-cased query selects a
ministry code (no similarity scoring is involved); no key occurring
yields nothing. -/
def get_minister_by_ministry_name_and_date (governments : List Government)
    (ministryName : String) (lawDate : Option Date) : Option String :=
  match ministry_mappings.find? (fun kv => subL kv.1.toList (lowerL ministryName.toList)) with
  | none => none
  | some kv => get_minister_by_ministry_code_and_date governments kv.2 lawDate

/-- Modelled from the spec: the fixed vocabulary of canonical ministry
key terms of the similarity scoring that spec section 4.3 attributes to
the ministry-registry-by-code variant; no such scoring exists anywhere
in the source, so the definition follows the spec's words, for
comparison with the code. -/
def specKeyTerms : List String :=
  ["finance", "justice", "interior", "health", "defense", "foreign", "economy",
   "agriculture", "education", "culture", "environment", "infrastructure",
   "labor", "family"]

/-- Modelled from the spec: the key terms present in a name (substring
test on the lower-cased name). -/
def specTermsIn (s : String) : List String :=
  specKeyTerms.filter (fun t => subL t.toList (lowerL s.toList))

/-- Modelled from the spec: the words of a name, for the raw
word-overlap fallback of the scoring. -/
def specWords (s : String) : List (List Char) :=
  (splitOnChar ' ' (lowerL s.toList)).filter (fun w => !w.isEmpty)

/-- Count of distinct elements of the first list occurring in the second. -/
def interCount {α : Type} [DecidableEq α] (xs ys : List α) : Nat :=
  (xs.dedup.filter (fun x => ys.contains x)).length

/-- Modelled from the spec: the similarity score of spec section 4.3 -
shared key terms over the larger key-term count, falling back to raw
word overlap when neither name contains a recognized key term. -/
def specScore (q c : String) : ℚ :=
  let tq := specTermsIn q
  let tc := specTermsIn c
  if tq.isEmpty && tc.isEmpty then
    let wq := specWords q
    let wc := specWords c
    if wq.isEmpty && wc.isEmpty then 0
    else (interCount wq wc : ℚ) / (max wq.dedup.length wc.dedup.length : ℚ)
  else (interCount tq tc : ℚ) / (max tq.length tc.length : ℚ)

/-- The _government_metadata dictionary attached to each NPB row by
api_client (responsible_ministry and adopting_body may be None there;
government_info is always a string). -/
structure GovMeta where
  responsible_ministry : Option String
  adopting_body : Option String
  government_info : String
deriving DecidableEq, Repr

/-- One row of the law-versions DataFrame handed to LawProcessor.  A
field holds none where the pandas cell is NaN/None (or, for the date,
not a Timestamp); note that the empty string is a present value, not
NaN.  government_metadata is none when the row lacks the key (the
Python code defaults it to an empty, falsy dict). -/
structure LawRow where
  ID : Option String
  KRATICA : Option String
  NASLOV : Option String
  date_accepted : Option Date
  government_metadata : Option GovMeta
  amendment_name : Option String
deriving DecidableEq, Repr

/-- The LawMetadata named tuple of law_processor.py. -/
structure LawMeta where
  law_id : String
  law_code : String
  law_title : String
  law_date : Date
  government_metadata : Option GovMeta
  amendment_name : String
deriving DecidableEq, Repr

/-- Model of LawProcessor.validate_law_data: ID, KRATICA, NASLOV and
date_accepted must be present (pandas isna - an empty string passes),
the date must be a real Timestamp, and the government metadata must
carry a non-empty responsible ministry. -/
def validate_law_data (row : LawRow) : Bool :=
  row.ID.isSome && row.KRATICA.isSome && row.NASLOV.isSome && row.date_accepted.isSome &&
    (match row.government_metadata with
     | none => false
     | some gm =>
       match gm.responsible_ministry with
       | none => false
       | some s => decide (s ≠ ""))

/-- Model of LawProcessor.extract_law_metadata; its row accesses cannot
fail on validated rows, so the defaults of getD are never exercised in
the pipeline. -/
def extract_law_metadata (row : LawRow) : LawMeta :=
  { law_id := row.ID.getD ""
    law_code := row.KRATICA.getD ""
    law_title := row.NASLOV.getD ""
    law_date := row.date_accepted.getD ⟨0, 0, 0⟩
    government_metadata := row.government_metadata
    amendment_name := row.amendment_name.getD (row.KRATICA.getD "") }

/-- Model of LawProcessor.get_law_timeline: keep the rows that validate,
extract their metadata, and sort by date (Python's stable sort, a
defensive re-sort even for already sorted input). -/
def get_law_timeline (rows : List LawRow) : List LawMeta :=
  ((rows.filter validate_law_data).map extract_law_metadata).mergeSort
    (fun a b => dateLe a.law_date b.law_date)

/-- Model of LawProcessor.process_law_content: empty or whitespace-only
content is rejected; the whitespace normalisation and the external
bs4 prettifier are stateless formatting (spec section 1) and modelled as
the identity. -/
def process_law_content (rawContent : String) : Option String :=
  if rawContent.toList.all (fun c => c.isWhitespace) then none
  else some rawContent

/-- Model of LawProcessor.extract_responsible_ministry: a missing or
falsy metadata dict or a missing or empty ministry string yields none. -/
def extract_responsible_ministry (metadata : LawMeta) : Option String :=
  match metadata.government_metadata with
  | none => none
  | some gm =>
    match gm.responsible_ministry with
    | none => none
    | some ministry => if ministry = "" then none else some ministry

/-- Model of LawProcessor.generate_commit_message: the headline is
amendment_name - law_id - law_title, with the government info string
appended on a second line when present and non-empty. -/
def generate_commit_message (metadata : LawMeta) : String :=
  let headline := metadata.amendment_name ++ " - " ++ metadata.law_id ++ " - " ++ metadata.law_title
  match metadata.government_metadata with
  | some gm => if gm.government_info ≠ "" then headline ++ "\n" ++ gm.government_info else headline
  | none => headline

/-- Model of LawConverter._process_single_law.  The external
collaborators are parameters: contentOf is the data loader's fetch of a
version's raw content (none for missing or empty content) and commitOk
the git sink's success on (content, message, minister).  Every failure,
including the ValueError raised by get_responsible_minister, is caught
at this boundary and converted to False. -/
def process_single_law (contentOf : String → Option String)
    (commitOk : String → String → MinisterRec → Bool)
    (ministers : List MinisterRec) (metadata : LawMeta) : Bool :=
  match contentOf metadata.law_id with
  | none => false
  | some rawContent =>
    match process_law_content rawContent with
    | none => false
    | some processedContent =>
      match extract_responsible_ministry metadata with
      | none => false
      | some ministry =>
        match get_responsible_minister ministers metadata.law_date ministry with
        | Except.error _ => false
        | Except.ok ministerInfo =>
          commitOk processedContent (generate_commit_message metadata) ministerInfo

/-- The counting loop of LawConverter.convert_law step 4: each timeline
entry increments processed_count on success and skipped_count
otherwise, and the loop always continues to the next entry. -/
def convert_law_loop (step : LawMeta → Bool) :
    List LawMeta → Nat → Nat → Nat × Nat
  | [], processed, skipped => (processed, skipped)
  | metadata :: rest, processed, skipped =>
    if step metadata then convert_law_loop step rest (processed + 1) skipped
    else convert_law_loop step rest processed (skipped + 1)

/-- The loop of convert_law started with both counters at zero. -/
def run_convert_law (step : LawMeta → Bool) (timeline : List LawMeta) : Nat × Nat :=
  convert_law_loop step timeline 0 0

/-- Unfolding of the boolean date order into arithmetic. -/
theorem dateLe_iff (a b : Date) :
    dateLe a b = true ↔
      a.year < b.year ∨ (a.year = b.year ∧
        (a.month < b.month ∨ (a.month = b.month ∧ a.day ≤ b.day))) := by
  simp [dateLe, Bool.or_eq_true, Bool.and_eq_true, decide_eq_true_eq]

/-- The date order is reflexive. -/
theorem dateLe_refl (a : Date) : dateLe a a = true := by
  rw [dateLe_iff]; omega

/-- The date order is transitive. -/
theorem dateLe_trans (a b c : Date) (hab : dateLe a b = true)
    (hbc : dateLe b c = true) : dateLe a c = true := by
  rw [dateLe_iff] at hab hbc ⊢; omega

/-- The date order is total. -/
theorem dateLe_total (a b : Date) : (dateLe a b || dateLe b a) = true := by
  rw [Bool.or_eq_true, dateLe_iff, dateLe_iff]; omega

/-- The date order is antisymmetric. -/
theorem dateLe_antisymm (a b : Date) (hab : dateLe a b = true)
    (hba : dateLe b a = true) : a = b := by
  rw [dateLe_iff] at hab hba
  cases a with
  | mk ya ma da =>
    cases b with
    | mk yb mb db =>
      dsimp only at hab hba
      simp only [Date.mk.injEq]
      omega

/-- The boolean starts-with test means existence of a completing tail. -/
theorem startsL_iff (n h : List Char) : startsL n h = true ↔ ∃ t, h = n ++ t := by
  induction n generalizing h with
  | nil =>
    simp only [startsL, List.nil_append, true_iff]
    exact ⟨h, rfl⟩
  | cons a as ih =>
    cases h with
    | nil =>
      simp [startsL]
    | cons b bs =>
      rw [show startsL (a :: as) (b :: bs) = (a == b && startsL as bs) from rfl,
        Bool.and_eq_true, beq_iff_eq, ih]
      constructor
      · rintro ⟨rfl, t, rfl⟩
        exact ⟨t, rfl⟩
      · rintro ⟨t, ht⟩
        injection ht with h1 h2
        exact ⟨h1.symm, t, h2⟩

/-- The boolean substring test decides the substring relation. -/
theorem subL_iff (n h : List Char) : subL n h = true ↔ SubstrOf n h := by
  induction h with
  | nil =>
    rw [show subL n [] = startsL n [] from rfl, startsL_iff]
    constructor
    · rintro ⟨t, ht⟩
      exact ⟨[], t, by simpa using ht⟩
    · rintro ⟨p, s, hps⟩
      rcases List.append_eq_nil.mp (List.append_eq_nil.mp hps.symm).1 with ⟨rfl, rfl⟩
      exact ⟨[], rfl⟩
  | cons c rest ih =>
    rw [show subL n (c :: rest) = (startsL n (c :: rest) || subL n rest) from rfl,
      Bool.or_eq_true, startsL_iff, ih]
    constructor
    · rintro (⟨t, ht⟩ | ⟨p, s, hps⟩)
      · exact ⟨[], t, by simpa using ht⟩
      · exact ⟨c :: p, s, by simp [hps]⟩
    · rintro ⟨p, s, hps⟩
      cases p with
      | nil =>
        left
        exact ⟨s, by simpa using hps⟩
      | cons x xs =>
        right
        injection hps with h1 h2
        exact ⟨xs, s, h2⟩

/-- The counting loop only adds to the accumulators it was started with. -/
theorem convert_law_loop_acc (step : LawMeta → Bool) (l : List LawMeta) (p s : Nat) :
    convert_law_loop step l p s =
      (p + (convert_law_loop step l 0 0).1, s + (convert_law_loop step l 0 0).2) := by
  induction l generalizing p s with
  | nil => simp [convert_law_loop]
  | cons m rest ih =>
    cases hm : step m with
    | true =>
      simp only [convert_law_loop, hm, if_true]
      rw [ih (p + 1) s, ih 1 0]
      simp [Prod.ext_iff]
      omega
    | false =>
      simp only [convert_law_loop, hm, if_false]
      rw [ih p (s + 1), ih 0 1]
      simp [Prod.ext_iff]
      omega

/-- The counting loop distributes over list concatenation. -/
theorem convert_law_loop_append (step : LawMeta → Bool) (a b : List LawMeta) (p s : Nat) :
    convert_law_loop step (a ++ b) p s =
      convert_law_loop step b (convert_law_loop step a p s).1 (convert_law_loop step a p s).2 := by
  induction a generalizing p s with
  | nil => simp [convert_law_loop]
  | cons m rest ih =>
    cases hm : step m with
    | true => simp [convert_law_loop, hm, ih]
    | false => simp [convert_law_loop, hm, ih]

/-- Counter totals of the loop: each entry lands in exactly one counter. -/
theorem convert_law_loop_sum (step : LawMeta → Bool) (l : List LawMeta) (p s : Nat) :
    (convert_law_loop step l p s).1 + (convert_law_loop step l p s).2 = p + s + l.length := by
  induction l generalizing p s with
  | nil => simp [convert_law_loop]
  | cons m rest ih =>
    cases hm : step m with
    | true =>
      have hstep : convert_law_loop step (m :: rest) p s =
          convert_law_loop step rest (p + 1) s := by
        simp [convert_law_loop, hm]
      rw [hstep, ih (p + 1) s]
      simp
      omega
    | false =>
      have hstep : convert_law_loop step (m :: rest) p s =
          convert_law_loop step rest p (s + 1) := by
        simp [convert_law_loop, hm]
      rw [hstep, ih p (s + 1)]
      simp
      omega

/-- C9: at the end of every run of the per-entry processing loop in
convert_law, processed_count + skipped_count equals the number of
timeline entries attempted - each iteration increments exactly one of
the two counters. -/
theorem convert_law_counts_partition (step : LawMeta → Bool) (timeline : List LawMeta) :
    (run_convert_law step timeline).1 + (run_convert_law step timeline).2 =
      timeline.length := by
  have h := convert_law_loop_sum step timeline 0 0
  simpa [run_convert_law] using h

/-- C10: an NPB version numbered above 1 whose record lacks a parseable
document date is named baseCode ++ "-v" ++ n, a name form that is
neither an amendment-event code nor a letter suffix. -/
theorem unparseable_date_yields_vname (npb : NpbRec) (n : Nat)
    (amendments : List Amendment) (baseKratica : String) (hn : 1 < n)
    (hbad : parseYMD npb.datumDokumenta = none) :
    determineAmendmentName npb n amendments baseKratica =
      baseKratica ++ "-v" ++ toString n := by
  have hne1 : ¬ n = 1 := by omega
  by_cases hempty : npb.datumDokumenta = ""
  · simp [determineAmendmentName, hne1, hempty]
  · simp [determineAmendmentName, hne1, hempty, hbad]

/-- C10 witness: version 2 of a record with the unparseable document
date "not-a-date" is named "ZDoh-2-v2", which is not the letter-scheme
name of version 2. -/
theorem unparseable_date_yields_vname_witness :
    1 < 2 ∧ parseYMD "not-a-date" = none ∧
    determineAmendmentName ⟨7, "x", "not-a-date"⟩ 2 [] "ZDoh-2" =
      "ZDoh-2" ++ "-v" ++ toString 2 ∧
    determineAmendmentName ⟨7, "x", "not-a-date"⟩ 2 [] "ZDoh-2" ≠
      fallbackLetterName "ZDoh-2" 2 :=
  ⟨by decide, by decide,
    unparseable_date_yields_vname ⟨7, "x", "not-a-date"⟩ 2 [] "ZDoh-2"
      (by decide) (by decide),
    by decide⟩

/-- C1 counterexample: on the fallback letter path version 27 is named
"ZDoh-2Z" (not "ZDoh-2AA" as claimed) and version 28 is named
"ZDoh-2AA" (not "ZDoh-2AB" as claimed). -/
theorem fallback_letter_counterexample :
    determineAmendmentName ⟨1, "x", "2010-05-15"⟩ 27 [] "ZDoh-2" = "ZDoh-2Z" ∧
    determineAmendmentName ⟨1, "x", "2010-05-15"⟩ 27 [] "ZDoh-2" ≠ "ZDoh-2AA" ∧
    determineAmendmentName ⟨1, "x", "2010-05-15"⟩ 28 [] "ZDoh-2" = "ZDoh-2AA" ∧
    determineAmendmentName ⟨1, "x", "2010-05-15"⟩ 28 [] "ZDoh-2" ≠ "ZDoh-2AB" := by
  decide

/-- C1 (amended): for every version number k ≥ 2 that reaches the
fallback letter path (document date parseable, no amendment-derived
code), the name is the base code plus the deterministic letter suffix
satisfying k=2 → "A", k=3 → "B", k=27 → "Z", k=28 → "AA", k=29 → "AB". -/
theorem fallback_letter_scheme (npb : NpbRec) (amendments : List Amendment)
    (baseKratica : String) (k : Nat) (hk : 2 ≤ k)
    (hdate : (parseYMD npb.datumDokumenta).isSome = true)
    (hnoevent : amendmentEventCode? k amendments = none) :
    determineAmendmentName npb k amendments baseKratica =
        fallbackLetterName baseKratica k ∧
      fallbackLetterName baseKratica 2 = baseKratica ++ "A" ∧
      fallbackLetterName baseKratica 3 = baseKratica ++ "B" ∧
      fallbackLetterName baseKratica 27 = baseKratica ++ "Z" ∧
      fallbackLetterName baseKratica 28 = baseKratica ++ "AA" ∧
      fallbackLetterName baseKratica 29 = baseKratica ++ "AB" := by
  obtain ⟨d, hd⟩ := Option.isSome_iff_exists.mp hdate
  have hne1 : ¬ k = 1 := by omega
  have hnonempty : ¬ npb.datumDokumenta = "" := by
    intro h
    rw [h] at hd
    exact Option.noConfusion hd
  refine ⟨?_, rfl, rfl, ?_, ?_, ?_⟩
  · simp [determineAmendmentName, hne1, hnonempty, hd, hnoevent]
  · calc fallbackLetterName baseKratica 27
        = baseKratica ++ String.mk [Char.ofNat (65 + (27 - 2))] := rfl
      _ = baseKratica ++ "Z" := by
          rw [show String.mk [Char.ofNat (65 + (27 - 2))] = "Z" from by decide]
  · calc fallbackLetterName baseKratica 28
        = baseKratica ++ String.mk [Char.ofNat (65 + ((28 - 2) - 26) / 26),
            Char.ofNat (65 + ((28 - 2) - 26) % 26)] := rfl
      _ = baseKratica ++ "AA" := by
          rw [show String.mk [Char.ofNat (65 + ((28 - 2) - 26) / 26),
            Char.ofNat (65 + ((28 - 2) - 26) % 26)] = "AA" from by decide]
  · calc fallbackLetterName baseKratica 29
        = baseKratica ++ String.mk [Char.ofNat (65 + ((29 - 2) - 26) / 26),
            Char.ofNat (65 + ((29 - 2) - 26) % 26)] := rfl
      _ = baseKratica ++ "AB" := by
          rw [show String.mk [Char.ofNat (65 + ((29 - 2) - 26) / 26),
            Char.ofNat (65 + ((29 - 2) - 26) % 26)] = "AB" from by decide]

/-- C1 witness: the amended letter scheme instantiated at version 27
with a parseable date and no amendment events. -/
theorem fallback_letter_scheme_witness :
    2 ≤ 27 ∧ (parseYMD "2010-05-15").isSome = true ∧
      amendmentEventCode? 27 [] = none ∧
      (determineAmendmentName ⟨1, "x", "2010-05-15"⟩ 27 [] "ZDoh-2" =
          fallbackLetterName "ZDoh-2" 27 ∧
        fallbackLetterName "ZDoh-2" 2 = "ZDoh-2" ++ "A" ∧
        fallbackLetterName "ZDoh-2" 3 = "ZDoh-2" ++ "B" ∧
        fallbackLetterName "ZDoh-2" 27 = "ZDoh-2" ++ "Z" ∧
        fallbackLetterName "ZDoh-2" 28 = "ZDoh-2" ++ "AA" ∧
        fallbackLetterName "ZDoh-2" 29 = "ZDoh-2" ++ "AB") :=
  ⟨by decide, by decide, by decide,
    fallback_letter_scheme ⟨1, "x", "2010-05-15"⟩ [] "ZDoh-2" 27
      (by decide) (by decide) (by decide)⟩

/-- C2: for every non-empty list of NPB records and non-empty base
code, the chronologically first version (version number 1 after the
sort by document date) is named with the base code itself, in both its
KRATICA field and its stashed amendment name. -/
theorem first_npb_version_gets_base_code (npbs : List NpbRec)
    (amendments : List Amendment) (baseKratica : String)
    (hne : npbs ≠ []) (hbase : baseKratica ≠ "") :
    ((get_historical_npb_versions npbs amendments baseKratica).head?).map
        NpbEntry.amendment_name = some baseKratica ∧
    ((get_historical_npb_versions npbs amendments baseKratica).head?).map
        NpbEntry.KRATICA = some baseKratica := by
  have hlen : (npbs.mergeSort
      (fun a b => lexLe a.datumDokumenta.toList b.datumDokumenta.toList)).length =
      npbs.length := (List.mergeSort_perm npbs _).length_eq
  cases hL : npbs.mergeSort
      (fun a b => lexLe a.datumDokumenta.toList b.datumDokumenta.toList) with
  | nil =>
    exfalso
    apply hne
    have hz : npbs.length = 0 := by rw [← hlen, hL]; rfl
    exact List.length_eq_zero.mp hz
  | cons x xs =>
    unfold get_historical_npb_versions
    rw [hL]
    simp [buildNpbEntries, npbEntryOf, determineAmendmentName]

/-- C2 witness: a two-element unsorted NPB list whose chronologically
first record receives the base code "ZDoh-2". -/
theorem first_npb_version_gets_base_code_witness :
    ([⟨2, "n2", "2007-06-01"⟩, ⟨1, "n1", "2006-11-26"⟩] : List NpbRec) ≠ [] ∧
      ("ZDoh-2" : String) ≠ "" ∧
      (((get_historical_npb_versions
            [⟨2, "n2", "2007-06-01"⟩, ⟨1, "n1", "2006-11-26"⟩] [] "ZDoh-2").head?).map
          NpbEntry.amendment_name = some "ZDoh-2" ∧
        ((get_historical_npb_versions
            [⟨2, "n2", "2007-06-01"⟩, ⟨1, "n1", "2006-11-26"⟩] [] "ZDoh-2").head?).map
          NpbEntry.KRATICA = some "ZDoh-2") :=
  ⟨by decide, by decide,
    first_npb_version_gets_base_code
      [⟨2, "n2", "2007-06-01"⟩, ⟨1, "n1", "2006-11-26"⟩] [] "ZDoh-2"
      (by decide) (by decide)⟩

/-- A plain-string minister record used to exhibit the one-directional
plain-field match. -/
def c3Minister : MinisterRec :=
  ⟨MinistryField.plain "Finance", "Alice", ⟨2008, 11, 21⟩, ⟨2011, 2, 10⟩⟩

/-- C3 counterexample: for the plain-string ministry field "Finance" and
the query "Ministry of Finance", the candidate is a case-insensitive
substring of the query, yet the match fails (the plain branch only
tests query-inside-candidate), and find_minister finds nothing. -/
theorem ministry_match_counterexample :
    SubstrOf (lowerL "Finance".toList) (lowerL "Ministry of Finance".toList) ∧
    ministryMatches c3Minister "Ministry of Finance" = false ∧
    find_minister [c3Minister] "Ministry of Finance" ⟨2010, 1, 1⟩ = none := by
  refine ⟨?_, by decide, by decide⟩
  rw [← subL_iff]
  decide

/-- C3 (amended): for a bilingual ministry field the match is a
case-insensitive substring test in either direction against either
language, but for a plain-string field it succeeds exactly when the
query occurs inside the candidate (not the other direction). -/
theorem ministry_match_directions (m : MinisterRec) (q : String) :
    (∀ en sl, m.ministry = MinistryField.bilingual en sl →
      (ministryMatches m q = true ↔
        (SubstrOf (lowerL q.toList) (lowerL en.toList) ∨
         SubstrOf (lowerL q.toList) (lowerL sl.toList) ∨
         SubstrOf (lowerL en.toList) (lowerL q.toList) ∨
         SubstrOf (lowerL sl.toList) (lowerL q.toList)))) ∧
    (∀ s, m.ministry = MinistryField.plain s →
      (ministryMatches m q = true ↔ SubstrOf (lowerL q.toList) (lowerL s.toList))) := by
  constructor
  · intro en sl h
    simp only [ministryMatches, h, Bool.or_eq_true, subL_iff, or_assoc]
  · intro s h
    simp only [ministryMatches, h, subL_iff]

/-- An appointment and government used for the manual-lookup claims. -/
def c4Appointment : Appointment :=
  ⟨"MZ", "Alice", some ⟨2008, 11, 21⟩, some ⟨2012, 2, 10⟩⟩

/-- A curated government record holding one appointment. -/
def c4Gov : Government :=
  ⟨9, some ⟨2008, 11, 21⟩, some ⟨2012, 2, 10⟩, [c4Appointment]⟩

/-- C4 counterexample: the ministry-registry-by-code variant returns a
minister for the query "zdravje" even though the query's spec-defined
similarity score against every candidate field of the matched
appointment (its code and its officeholder name) is 0, below the
claimed 0.3 threshold - the code path uses a fixed keyword table, not
similarity scoring. -/
theorem scoring_threshold_counterexample :
    specScore "zdravje" "MZ" < 3 / 10 ∧
    specScore "zdravje" "Alice" < 3 / 10 ∧
    get_minister_by_ministry_name_and_date [c4Gov] "zdravje" (some ⟨2010, 6, 15⟩) =
      some "Alice" := by
  have hmz : specScore "zdravje" "MZ" = 0 := by
    norm_num [specScore,
      show specTermsIn "zdravje" = [] from by decide,
      show specTermsIn "MZ" = [] from by decide,
      show (specWords "zdravje").isEmpty = false from by decide,
      show interCount (specWords "zdravje") (specWords "MZ") = 0 from by decide,
      show (specWords "zdravje").dedup.length = 1 from by decide,
      show (specWords "MZ").dedup.length = 1 from by decide]
  have halice : specScore "zdravje" "Alice" = 0 := by
    norm_num [specScore,
      show specTermsIn "zdravje" = [] from by decide,
      show specTermsIn "Alice" = [] from by decide,
      show (specWords "zdravje").isEmpty = false from by decide,
      show interCount (specWords "zdravje") (specWords "Alice") = 0 from by decide,
      show (specWords "zdravje").dedup.length = 1 from by decide,
      show (specWords "Alice").dedup.length = 1 from by decide]
  refine ⟨by rw [hmz]; norm_num, by rw [halice]; norm_num, by decide⟩

/-- C4 (amended): the by-code variant performs no similarity scoring: a
query whose lower-cased form contains none of the fixed table keywords
yields no minister, whatever the registry and date. -/
theorem no_keyword_yields_notfound (governments : List Government)
    (ministryName : String) (lawDate : Option Date)
    (h : ∀ kv ∈ ministry_mappings,
      subL kv.1.toList (lowerL ministryName.toList) = false) :
    get_minister_by_ministry_name_and_date governments ministryName lawDate = none := by
  have hfind : ministry_mappings.find?
      (fun kv => subL kv.1.toList (lowerL ministryName.toList)) = none := by
    apply List.find?_eq_none.mpr
    intro kv hkv
    have hf := h kv hkv
    simp only [Bool.not_eq_true]
    simp at hf ⊢
    exact hf
  unfold get_minister_by_ministry_name_and_date
  rw [hfind]

/-- C4 witness: the query "sport" contains no table keyword and resolves
to nothing even against a registry with an active appointment. -/
theorem no_keyword_yields_notfound_witness :
    (∀ kv ∈ ministry_mappings, subL kv.1.toList (lowerL "sport".toList) = false) ∧
    get_minister_by_ministry_name_and_date [c4Gov] "sport" (some ⟨2010, 6, 15⟩) = none :=
  ⟨by decide,
    no_keyword_yields_notfound [c4Gov] "sport" (some ⟨2010, 6, 15⟩) (by decide)⟩

/-- C6: date-interval containment is inclusive on both ends in both
lookup paths: a query date equal to a government period's or an
appointment's start or end bound is contained and matches. -/
theorem interval_containment_inclusive (s e : Date) (hse : dateLe s e = true)
    (gov : Government) (hgs : gov.periodStart = some s) (hge : gov.periodEnd = some e)
    (m : MinisterRec) (hms : m.start_date = s) (hme : m.end_date = e)
    (q : String) (hmatch : ministryMatches m q = true) :
    govPeriodContains gov s = true ∧ govPeriodContains gov e = true ∧
    get_government_by_date [gov] (some s) = some gov ∧
    get_government_by_date [gov] (some e) = some gov ∧
    ministerActiveOn m s = true ∧ ministerActiveOn m e = true ∧
    find_minister [m] q s = some m ∧ find_minister [m] q e = some m := by
  have h1 : govPeriodContains gov s = true := by
    simp [govPeriodContains, hgs, hge, dateLe_refl, hse]
  have h2 : govPeriodContains gov e = true := by
    simp [govPeriodContains, hgs, hge, dateLe_refl, hse]
  have h3 : ministerActiveOn m s = true := by
    simp [ministerActiveOn, hms, hme, dateLe_refl, hse]
  have h4 : ministerActiveOn m e = true := by
    simp [ministerActiveOn, hms, hme, dateLe_refl, hse]
  refine ⟨h1, h2, ?_, ?_, h3, h4, ?_, ?_⟩
  · simp [get_government_by_date, List.find?_cons, h1]
  · simp [get_government_by_date, List.find?_cons, h2]
  · simp [find_minister, List.find?_cons, hmatch, h3]
  · simp [find_minister, List.find?_cons, hmatch, h4]

/-- A minister record with parsed tenure bounds for the C6 witness. -/
def c6Minister : MinisterRec :=
  ⟨MinistryField.plain "Ministrstvo za finance", "Bob", ⟨2008, 11, 21⟩, ⟨2011, 2, 10⟩⟩

/-- A government whose period carries the same bounds for the C6 witness. -/
def c6Gov : Government := ⟨9, some ⟨2008, 11, 21⟩, some ⟨2011, 2, 10⟩, []⟩

/-- C6 witness: the inclusive-bounds theorem instantiated at the term
2008-11-21 to 2011-02-10 with the query "finance". -/
theorem interval_containment_inclusive_witness :
    dateLe ⟨2008, 11, 21⟩ ⟨2011, 2, 10⟩ = true ∧
      c6Gov.periodStart = some ⟨2008, 11, 21⟩ ∧
      c6Gov.periodEnd = some ⟨2011, 2, 10⟩ ∧
      c6Minister.start_date = ⟨2008, 11, 21⟩ ∧
      c6Minister.end_date = ⟨2011, 2, 10⟩ ∧
      ministryMatches c6Minister "finance" = true ∧
      (govPeriodContains c6Gov ⟨2008, 11, 21⟩ = true ∧
        govPeriodContains c6Gov ⟨2011, 2, 10⟩ = true ∧
        get_government_by_date [c6Gov] (some ⟨2008, 11, 21⟩) = some c6Gov ∧
        get_government_by_date [c6Gov] (some ⟨2011, 2, 10⟩) = some c6Gov ∧
        ministerActiveOn c6Minister ⟨2008, 11, 21⟩ = true ∧
        ministerActiveOn c6Minister ⟨2011, 2, 10⟩ = true ∧
        find_minister [c6Minister] "finance" ⟨2008, 11, 21⟩ = some c6Minister ∧
        find_minister [c6Minister] "finance" ⟨2011, 2, 10⟩ = some c6Minister) :=
  ⟨by decide, by decide, by decide, by decide, by decide, by decide,
    interval_containment_inclusive ⟨2008, 11, 21⟩ ⟨2011, 2, 10⟩ (by decide)
      c6Gov (by decide) (by decide) c6Minister (by decide) (by decide)
      "finance" (by decide)⟩

/-- A step returning false sends the entry to the skipped counter. -/
theorem convert_law_loop_cons_false (step : LawMeta → Bool) (m : LawMeta)
    (l : List LawMeta) (p s : Nat) (hm : step m = false) :
    convert_law_loop step (m :: l) p s = convert_law_loop step l p (s + 1) := by
  simp [convert_law_loop, hm]

/-- C5: a timeline entry whose minister resolution finds no match makes
the per-entry step return failure, and the loop records exactly one
more skip while the counts over the remaining entries are unchanged -
the failure never escapes the loop. -/
theorem resolution_failure_is_skipped (contentOf : String → Option String)
    (commitOk : String → String → MinisterRec → Bool)
    (ministers : List MinisterRec) (m : LawMeta) (pre post : List LawMeta)
    (hmin : ∀ ministry, extract_responsible_ministry m = some ministry →
      find_minister ministers ministry m.law_date = none) :
    process_single_law contentOf commitOk ministers m = false ∧
    (run_convert_law (process_single_law contentOf commitOk ministers)
        (pre ++ m :: post)).1 =
      (run_convert_law (process_single_law contentOf commitOk ministers)
        (pre ++ post)).1 ∧
    (run_convert_law (process_single_law contentOf commitOk ministers)
        (pre ++ m :: post)).2 =
      (run_convert_law (process_single_law contentOf commitOk ministers)
        (pre ++ post)).2 + 1 := by
  have hstep : process_single_law contentOf commitOk ministers m = false := by
    cases hc : contentOf m.law_id with
    | none => simp [process_single_law, hc]
    | some raw =>
      cases hp : process_law_content raw with
      | none => simp [process_single_law, hc, hp]
      | some pc =>
        cases he : extract_responsible_ministry m with
        | none => simp [process_single_law, hc, hp, he]
        | some ministry =>
          simp [process_single_law, hc, hp, he, get_responsible_minister,
            hmin ministry he]
  have hboth : run_convert_law (process_single_law contentOf commitOk ministers)
      (pre ++ m :: post) =
      ((run_convert_law (process_single_law contentOf commitOk ministers)
          (pre ++ post)).1,
        (run_convert_law (process_single_law contentOf commitOk ministers)
          (pre ++ post)).2 + 1) := by
    rcases hpost : convert_law_loop (process_single_law contentOf commitOk ministers)
      post 0 0 with ⟨X, Y⟩
    rcases hpre : convert_law_loop (process_single_law contentOf commitOk ministers)
      pre 0 0 with ⟨P, S⟩
    rw [run_convert_law, run_convert_law, convert_law_loop_append,
      convert_law_loop_append, hpre]
    rw [convert_law_loop_cons_false _ _ _ _ _ hstep]
    rw [convert_law_loop_acc _ post P (S + 1), convert_law_loop_acc _ post P S, hpost]
    show (P + X, S + 1 + Y) = (P + X, S + Y + 1)
    rw [Nat.add_right_comm S 1 Y]
  exact ⟨hstep, by rw [hboth], by rw [hboth]⟩

/-- A timeline entry whose ministry resolves against an empty registry,
for instantiating the skip theorem. -/
def c5Meta : LawMeta :=
  ⟨"123", "ZDoh-2", "Zakon", ⟨2010, 5, 15⟩,
    some ⟨some "Ministrstvo za finance", none, ""⟩, "ZDoh-2A"⟩

/-- C5 witness: against an empty minister registry, processing c5Meta
fails and a one-entry run records it as the single skip. -/
theorem resolution_failure_is_skipped_witness :
    (∀ ministry, extract_responsible_ministry c5Meta = some ministry →
      find_minister [] ministry c5Meta.law_date = none) ∧
    (process_single_law (fun _ => some "besedilo") (fun _ _ _ => true) [] c5Meta = false ∧
      (run_convert_law (process_single_law (fun _ => some "besedilo") (fun _ _ _ => true) [])
          ([] ++ c5Meta :: [])).1 =
        (run_convert_law (process_single_law (fun _ => some "besedilo") (fun _ _ _ => true) [])
          ([] ++ [])).1 ∧
      (run_convert_law (process_single_law (fun _ => some "besedilo") (fun _ _ _ => true) [])
          ([] ++ c5Meta :: [])).2 =
        (run_convert_law (process_single_law (fun _ => some "besedilo") (fun _ _ _ => true) [])
          ([] ++ [])).2 + 1) :=
  ⟨fun _ _ => rfl,
    resolution_failure_is_skipped (fun _ => some "besedilo") (fun _ _ _ => true)
      [] c5Meta [] [] (fun _ _ => rfl)⟩

/-- Validation forces the date field to be present. -/
theorem validate_date_isSome (r : LawRow) (h : validate_law_data r = true) :
    r.date_accepted.isSome = true := by
  simp only [validate_law_data, Bool.and_eq_true] at h
  exact h.1.2

/-- On a validated row the date field holds exactly the extracted
metadata's law date. -/
theorem date_accepted_extract (r : LawRow) (h : validate_law_data r = true) :
    r.date_accepted = some ((extract_law_metadata r).law_date) := by
  obtain ⟨d, hd⟩ := Option.isSome_iff_exists.mp (validate_date_isSome r h)
  rw [hd]
  simp [extract_law_metadata, hd]

/-- C7: for inputs with pairwise distinct adoption dates, the timeline
is the same for any permutation of the input and is sorted ascending by
date. -/
theorem timeline_sorted_and_perm_invariant (rows1 rows2 : List LawRow)
    (hperm : rows1.Perm rows2)
    (hdist : rows1.Pairwise (fun a b =>
      a.date_accepted.isSome = true → b.date_accepted.isSome = true →
        a.date_accepted ≠ b.date_accepted)) :
    get_law_timeline rows1 = get_law_timeline rows2 ∧
    (get_law_timeline rows1).Sorted
      (fun a b => dateLe a.law_date b.law_date = true) := by
  have htrans : ∀ a b c : LawMeta, dateLe a.law_date b.law_date = true →
      dateLe b.law_date c.law_date = true → dateLe a.law_date c.law_date = true :=
    fun _ _ _ hab hbc => dateLe_trans _ _ _ hab hbc
  have htotal : ∀ a b : LawMeta,
      (dateLe a.law_date b.law_date || dateLe b.law_date a.law_date) = true :=
    fun _ _ => dateLe_total _ _
  have hsorted : ∀ rows : List LawRow, (get_law_timeline rows).Sorted
      (fun a b => dateLe a.law_date b.law_date = true) := by
    intro rows
    exact List.sorted_mergeSort htrans htotal _
  have hpw : ∀ rows : List LawRow, rows.Pairwise (fun a b =>
      a.date_accepted.isSome = true → b.date_accepted.isSome = true →
        a.date_accepted ≠ b.date_accepted) →
      (get_law_timeline rows).Pairwise
        (fun a b : LawMeta => a.law_date ≠ b.law_date) := by
    intro rows hd
    have h1 := hd.filter validate_law_data
    have h2 : (rows.filter validate_law_data).Pairwise
        (fun a b => a.date_accepted ≠ b.date_accepted) := by
      refine h1.imp_of_mem ?_
      intro a b ha hb hR
      exact hR (validate_date_isSome a (List.mem_filter.mp ha).2)
        (validate_date_isSome b (List.mem_filter.mp hb).2)
    have h3 : ((rows.filter validate_law_data).map extract_law_metadata).Pairwise
        (fun a b : LawMeta => a.law_date ≠ b.law_date) := by
      rw [List.pairwise_map]
      refine h2.imp_of_mem ?_
      intro a b ha hb hne heq
      apply hne
      rw [date_accepted_extract a (List.mem_filter.mp ha).2,
        date_accepted_extract b (List.mem_filter.mp hb).2, heq]
    have hperm2 : (get_law_timeline rows).Perm
        ((rows.filter validate_law_data).map extract_law_metadata) :=
      List.mergeSort_perm _ _
    exact (hperm2.pairwise_iff (fun hxy => Ne.symm hxy)).mpr h3
  have hd2 : rows2.Pairwise (fun a b =>
      a.date_accepted.isSome = true → b.date_accepted.isSome = true →
        a.date_accepted ≠ b.date_accepted) :=
    (hperm.pairwise_iff (fun hR hy hx => Ne.symm (hR hx hy))).mp hdist
  have hpermT : (get_law_timeline rows1).Perm (get_law_timeline rows2) :=
    (List.mergeSort_perm _ _).trans
      (((hperm.filter validate_law_data).map extract_law_metadata).trans
        (List.mergeSort_perm _ _).symm)
  haveI : IsAntisymm LawMeta
      (fun a b => dateLe a.law_date b.law_date = true ∧ a.law_date ≠ b.law_date) :=
    ⟨fun a b h1 h2 => absurd (dateLe_antisymm _ _ h1.1 h2.1) h1.2⟩
  exact ⟨List.eq_of_perm_of_sorted hpermT
    ((hsorted rows1).and (hpw rows1 hdist))
    ((hsorted rows2).and (hpw rows2 hd2)), hsorted rows1⟩

/-- A validated row with the earlier date for the C7 witness. -/
def c7RowA : LawRow :=
  ⟨some "1", some "ZDoh-2", some "Zakon", some ⟨2006, 11, 26⟩,
    some ⟨some "Ministrstvo za finance", none, ""⟩, some "ZDoh-2"⟩

/-- A validated row with the later date for the C7 witness. -/
def c7RowB : LawRow :=
  ⟨some "2", some "ZDoh-2A", some "Zakon", some ⟨2007, 6, 1⟩,
    some ⟨some "Ministrstvo za finance", none, ""⟩, some "ZDoh-2A"⟩

/-- C7 witness: the two orders of a two-row input with distinct dates
produce the same sorted timeline. -/
theorem timeline_sorted_and_perm_invariant_witness :
    ([c7RowB, c7RowA] : List LawRow).Perm [c7RowA, c7RowB] ∧
    ([c7RowB, c7RowA] : List LawRow).Pairwise (fun a b =>
      a.date_accepted.isSome = true → b.date_accepted.isSome = true →
        a.date_accepted ≠ b.date_accepted) ∧
    (get_law_timeline [c7RowB, c7RowA] = get_law_timeline [c7RowA, c7RowB] ∧
      (get_law_timeline [c7RowB, c7RowA]).Sorted
        (fun a b => dateLe a.law_date b.law_date = true)) :=
  ⟨by decide, by decide,
    timeline_sorted_and_perm_invariant [c7RowB, c7RowA] [c7RowA, c7RowB]
      (by decide) (by decide)⟩

/-- Unfolding of validation into presence and ministry conditions. -/
theorem validate_law_data_iff (r : LawRow) :
    validate_law_data r = true ↔
      (r.ID.isSome = true ∧ r.KRATICA.isSome = true ∧ r.NASLOV.isSome = true ∧
        r.date_accepted.isSome = true ∧
        ∃ gm s, r.government_metadata = some gm ∧
          gm.responsible_ministry = some s ∧ s ≠ "") := by
  rcases r with ⟨iD, kr, na, da, gmo, an⟩
  rcases gmo with _ | gm
  · simp [validate_law_data]
  · rcases gm with ⟨rm, ab, gi⟩
    rcases rm with _ | s
    · simp [validate_law_data]
    · simp [validate_law_data, Bool.and_eq_true, and_assoc]

/-- C8 (amended): a version row appears in the timeline exactly when its
id, short code and title cells are present (pandas isna - the empty
string is a present value and passes), its adoption date parsed to a
real Timestamp, and its metadata carries a non-empty responsible
ministry; rows failing this are dropped while the rest are processed. -/
theorem timeline_membership (rows : List LawRow) (m : LawMeta) :
    m ∈ get_law_timeline rows ↔
      ∃ r ∈ rows, (r.ID.isSome = true ∧ r.KRATICA.isSome = true ∧
        r.NASLOV.isSome = true ∧ r.date_accepted.isSome = true ∧
        ∃ gm s, r.government_metadata = some gm ∧
          gm.responsible_ministry = some s ∧ s ≠ "") ∧
        extract_law_metadata r = m := by
  unfold get_law_timeline
  rw [List.mem_mergeSort]
  simp only [List.mem_map, List.mem_filter, validate_law_data_iff]
  constructor
  · rintro ⟨r, ⟨hr, hv⟩, hm⟩
    exact ⟨r, hr, hv, hm⟩
  · rintro ⟨r, hr, hv, hm⟩
    exact ⟨r, ⟨hr, hv⟩, hm⟩

/-- A row whose id cell holds the empty string but is otherwise valid. -/
def c8Row : LawRow :=
  ⟨some "", some "ZDoh-2", some "Zakon", some ⟨2006, 11, 26⟩,
    some ⟨some "Ministrstvo za finance", none, ""⟩, none⟩

/-- C8 counterexample: a version with an empty-string id passes
validation and is included in the timeline, against the claimed
non-empty-id requirement. -/
theorem timeline_includes_empty_id :
    c8Row.ID = some "" ∧ validate_law_data c8Row = true ∧
    get_law_timeline [c8Row] = [extract_law_metadata c8Row] := by
  refine ⟨rfl, by decide, ?_⟩
  unfold get_law_timeline
  have h1 : (List.filter validate_law_data [c8Row]).map extract_law_metadata =
      [extract_law_metadata c8Row] := by decide
  rw [h1, List.mergeSort_singleton]

end GitLaws
